import Mathlib

/-!
A verification development for the iMIP mail gateway of the calendar server
(`twistedcaldav/mail.py`).  The Python code is embedded shallowly: SQL-backed
state becomes explicit list-of-rows state passing, fallible code returns
`Except`, and the handful of helpers from `twistedcaldav/ical.py` (which is not
part of the sources here) are modelled from the specification, as marked in
their doc comments.
-/

namespace MailGateway

/-! ## Token database (`MailGatewayTokensDatabase`, mail.py lines 584-710)

A row of the TOKENS table: `TOKEN, ORGANIZER, ATTENDEE, ICALUID, DATESTAMP`.
Dates are modelled as integers (day numbers); `datetime.date.today()` becomes
an explicit argument. -/
structure TokenRow where
  token : String
  organizer : String
  attendee : String
  icaluid : String
  datestamp : Int
deriving Repr, DecidableEq

/-- The WHERE clause `ORGANIZER = :1 and ATTENDEE = :2 and ICALUID = :3`. -/
def matchesTriple (org att uid : String) (r : TokenRow) : Bool :=
  r.organizer == org && r.attendee == att && r.icaluid == uid

/-- `update TOKENS set DATESTAMP = :1 WHERE TOKEN = :2` (mail.py lines 642-646). -/
def refreshToken (t : String) (today : Int) (db : List TokenRow) : List TokenRow :=
  db.map fun r => if r.token == t then { r with datestamp := today } else r

/-- `MailGatewayTokensDatabase.createToken` (mail.py lines 606-616): insert one
row.  The freshly generated `uuid.uuid4()` string is passed in as `token`. -/
def createToken (db : List TokenRow) (org att uid token : String) (today : Int) :
    List TokenRow :=
  db ++ [⟨token, org, att, uid, today⟩]

/-- `MailGatewayTokensDatabase.getToken` (mail.py lines 633-647): select the
token of the first row matching the triple; if found, refresh its datestamp
(the UPDATE keys on TOKEN).  Returns the token (if any) and the new table. -/
def getToken (db : List TokenRow) (org att uid : String) (today : Int) :
    Option String × List TokenRow :=
  match db.find? (matchesTriple org att uid) with
  | some r => (some r.token, refreshToken r.token today db)
  | none => (none, db)

/-- `MailGatewayTokensDatabase.lookupByToken` (mail.py lines 618-631): select
`ORGANIZER, ATTENDEE, ICALUID` of all rows with the given token; a result is
returned only when exactly one row matched. -/
def lookupByToken (db : List TokenRow) (token : String) :
    Option (String × String × String) :=
  match (db.filter fun r => r.token == token).map
      (fun r => (r.organizer, r.attendee, r.icaluid)) with
  | [x] => some x
  | _ => none

/-- `MailGatewayTokensDatabase.deleteToken` (mail.py lines 649-655). -/
def deleteToken (db : List TokenRow) (token : String) : List TokenRow :=
  db.filter fun r => !(r.token == token)

/-- `MailGatewayTokensDatabase.purgeOldTokens` (mail.py lines 657-663):
`delete from TOKENS where DATESTAMP < :1`. -/
def purgeOldTokens (db : List TokenRow) (before : Int) : List TokenRow :=
  db.filter fun r => !(r.datestamp < before)

/-- The purge cutoff used at `MailHandler.__init__` (mail.py lines 817-823):
`datetime.date.today() - datetime.timedelta(days=InvitationDaysToLive)`. -/
def mailHandlerPurgeCutoff (today : Int) (invitationDaysToLive : Nat) : Int :=
  today - invitationDaysToLive

/-- The token get-or-create sequence performed by `MailHandler.outbound`
(mail.py lines 989-996): `getToken`, and `createToken` only on a miss. -/
def getOrCreateToken (db : List TokenRow) (org att uid fresh : String)
    (today : Int) : String × List TokenRow :=
  match getToken db org att uid today with
  | (some t, db') => (t, db')
  | (none, db') => (fresh, createToken db' org att uid fresh today)

/-- The write operations the gateway performs on the token table. -/
inductive DBOp where
  | getOrCreate (org att uid fresh : String) (today : Int)
  | deleteTok (token : String)
  | purge (before : Int)

/-- Effect of one gateway operation on the table. -/
def applyOp (db : List TokenRow) : DBOp → List TokenRow
  | .getOrCreate org att uid fresh today => (getOrCreateToken db org att uid fresh today).2
  | .deleteTok t => deleteToken db t
  | .purge b => purgeOldTokens db b

/-- Table states reachable from the freshly created (empty) TOKENS table by the
gateway's own operations.  All database calls run synchronously on the single
reactor thread, so the sequential trace semantics is the program's semantics. -/
inductive Reachable : List TokenRow → Prop where
  | init : Reachable []
  | step (db : List TokenRow) (op : DBOp) : Reachable db → Reachable (applyOp db op)

/-! ## String helpers mirroring the Python string operations

Python strings are modelled as Lean `String`s, and the operations the gateway
performs on them are defined over the underlying character list. -/

/-- Python `s.split(sep)` for a one-character separator: splits at every
occurrence, so the result always has one more element than there are
separators (`"".split(c) = [""]`). -/
def splitCh (sep : Char) : List Char → List (List Char)
  | [] => [[]]
  | c :: rest =>
    if c = sep then [] :: splitCh sep rest
    else
      match splitCh sep rest with
      | [] => [[c]]
      | h :: t => (c :: h) :: t

/-- Python `s.split(sep, 1)` driving `k, v = p.split('=', 1)`: break at the
first occurrence, `none` when the separator is absent (an unpack ValueError). -/
def breakAtFirst (sep : Char) : List Char → Option (List Char × List Char)
  | [] => none
  | c :: rest =>
    if c = sep then some ([], rest)
    else (breakAtFirst sep rest).map fun p => (c :: p.1, p.2)

/-- Python `s.lower()` on a character list (the gateway only lowercases ASCII
header text). -/
def lowerLine (l : List Char) : List Char := l.map Char.toLower

/-- Python `s.strip()`: drop whitespace from both ends. -/
def pyStrip (s : String) : String :=
  String.mk (((s.data.dropWhile Char.isWhitespace).reverse.dropWhile
    Char.isWhitespace).reverse)

/-- Python `'%s' % v` where `v` may be `None`: `None` formats as the literal
string `None`. -/
def pyFormat : Option String → String
  | some s => s
  | none => "None"

/-- Python truthiness of an optional string: `None` and the empty string are
falsy. -/
def pyTruthy : Option String → Bool
  | none => false
  | some s => !(s == "")

/-! ## MIME message model

The classifier walks a `duck-typed` MIME tree; we model a part as its content
type, its decoded textual content, and its children (empty for leaf parts).
`payload` stands for what the code reads off the part: `get_payload(decode=True)`
for `text/calendar` parts and the textual rendering scanned for `Action:` lines
for `message/delivery-status` parts. -/
inductive MimePart where
  | mk (contentType : String) (payload : String) (children : List MimePart)

/-- Content type of a part (`part.get_content_type()`). -/
def MimePart.contentType : MimePart → String
  | .mk ct _ _ => ct

/-- Decoded textual content of a part. -/
def MimePart.payload : MimePart → String
  | .mk _ pl _ => pl

/-- Children of a multipart part. -/
def MimePart.children : MimePart → List MimePart
  | .mk _ _ cs => cs

mutual

/-- Python `message.walk()`: the part itself followed by a depth-first walk of
its children. -/
def walk : MimePart → List MimePart
  | .mk ct pl cs => .mk ct pl cs :: walkList cs

/-- `walk` mapped over a list of sibling parts. -/
def walkList : List MimePart → List MimePart
  | [] => []
  | p :: ps => walk p ++ walkList ps

end

/-- An inbound mail message as `MailHandler` reads it: the address that
`email.utils.parseaddr` extracts from the To header (the empty string when
nothing parses, matching the code's `if addr:` test) and the MIME part tree. -/
structure Message where
  toAddr : String
  part : MimePart

/-! ## Inbound classification (`MailHandler.checkDSN` / `processReply` /
`inbound`, mail.py lines 825-977) -/

/-- The scanning loop of `checkDSN` (mail.py lines 830-843): one pass over
`message.walk()`, remembering whether a `multipart/report` part was seen and
the last `message/delivery-status` and `text/calendar` payloads (each
assignment in the Python loop overwrites the previous one).  The
`message/rfc822` branch only records a value the function never uses. -/
def dsnScan : List MimePart → Bool × Option String × Option String →
    Bool × Option String × Option String
  | [], acc => acc
  | p :: ps, (report, ds, cal) =>
    if p.contentType = "multipart/report" then dsnScan ps (true, ds, cal)
    else if p.contentType = "message/delivery-status" then
      dsnScan ps (report, some p.payload, cal)
    else if p.contentType = "message/rfc822" then dsnScan ps (report, ds, cal)
    else if p.contentType = "text/calendar" then
      dsnScan ps (report, ds, some p.payload)
    else dsnScan ps (report, ds, cal)

/-- The `Action:` search of `checkDSN` (mail.py lines 848-856): the first line
whose lowercase form starts with `action:` wins, and the action value is the
second blank-separated field of that lowercased line — `lower.split(' ')[1]`
raises IndexError when the line has no second field. -/
def extractActionLines : List (List Char) → Except String (Option String)
  | [] => .ok none
  | line :: rest =>
    if "action:".data.isPrefixOf (lowerLine line) then
      match splitCh ' ' (lowerLine line) with
      | _ :: second :: _ => .ok (some (String.mk second))
      | _ => .error "IndexError: list index out of range"
    else extractActionLines rest

/-- `Action:` extraction over the delivery-status text split on newlines. -/
def extractActionE (ds : String) : Except String (Option String) :=
  extractActionLines (splitCh '\n' ds.data)

/-- `MailHandler.checkDSN` (mail.py lines 825-862): returns
`(isDSN, action, icalendar payload)`; a DSN needs both a `multipart/report`
part and a `message/delivery-status` part. -/
def checkDSNE (msg : MimePart) : Except String (Bool × Option String × Option String) :=
  match dsnScan (walk msg) (false, none, none) with
  | (true, some ds, calBody) =>
    match extractActionE ds with
    | .error e => .error e
    | .ok action => .ok (true, action, calBody)
  | _ => .ok (false, none, none)

/-- `MailHandler._extractToken` (mail.py lines 865-871): `pre, post =
text.split('@')` then `pre, token = pre.split('+')`; any unpacking ValueError
(not exactly one `@`, not exactly one `+` in the local part) yields `None`. -/
def extractToken (text : String) : Option String :=
  match splitCh '@' text.data with
  | [preAt, _post] =>
    match splitCh '+' preAt with
    | [_serverPart, token] => some (String.mk token)
    | _ => none
  | _ => none

/-- The calendar-part search of `processReply` (mail.py lines 920-927): the
first `text/calendar` part in walk order wins (`break`). -/
def firstCalendarBody (msg : MimePart) : Option String :=
  match (walk msg).find? (fun p => p.contentType == "text/calendar") with
  | some p => some p.payload
  | none => none

/-- Classification outcome of an inbound message, before any token lookup. -/
inductive Classified where
  | bounce (calBody : String)
  | reply (token : String) (calBody : String)
  | unusable
deriving Repr, DecidableEq

/-- The classification performed by `MailHandler.inbound` (mail.py lines
955-972) together with the front half of `processReply` (lines 907-927): DSN
routing first, then token extraction from the To address and the search for a
`text/calendar` part.  Every logged early `return` is `unusable`. -/
def classifyE (msg : Message) : Except String Classified :=
  match checkDSNE msg.part with
  | .error e => .error e
  | .ok (isDSN, action, calBody) =>
    if isDSN then
      match action, calBody with
      | some a, some b => if a = "failed" ∧ b ≠ "" then .ok (.bounce b) else .ok .unusable
      | _, _ => .ok .unusable
    else
      if msg.toAddr = "" then .ok .unusable
      else
        match extractToken msg.toAddr with
        | none => .ok .unusable
        | some token =>
          if token = "" then .ok .unusable
          else
            match firstCalendarBody msg.part with
            | none => .ok .unusable
            | some calBody => .ok (.reply token calBody)

/-- Classification with the surrounding `try`/`except` of `inbound`: any
exception becomes a logged drop. -/
def classify (msg : Message) : Classified :=
  match classifyE msg with
  | .ok c => c
  | .error _ => .unusable

/-! ## Reply rewriting (`MailHandler.processReply`, mail.py lines 930-952)

The calendar payload operations come from `twistedcaldav/ical.py`, which is not
among the sources; they are modelled from the specification. -/

/-- Modelled from the spec: the slice of `twistedcaldav.ical.Component` (file
`twistedcaldav/ical.py`, not under `src/`) that the Rewriter touches — the
payload's ATTENDEE property values and its optional single ORGANIZER property
value. -/
structure Calendar where
  attendees : List String
  organizer : Option String
deriving Repr, DecidableEq

/-- Modelled from the spec: `Component.removeAllButOneAttendee` (missing
`twistedcaldav/ical.py`) — "restrict the attendee list to exactly the
looked-up attendee". -/
def removeAllButOneAttendee (att : String) (cal : Calendar) : Calendar :=
  { cal with attendees := [att] }

/-- Modelled from the spec: `Component.getOrganizerProperty` (missing
`twistedcaldav/ical.py`) — the payload's organizer property, when present. -/
def getOrganizerProperty (cal : Calendar) : Option String := cal.organizer

/-- Modelled from the spec: `Property.setValue` on the organizer property
(missing `twistedcaldav/ical.py`) — overwrite the organizer value. -/
def setOrganizerValue (org : String) (cal : Calendar) : Calendar :=
  { cal with organizer := some org }

/-- Modelled from the spec: `Component.addProperty` with
`Property("ORGANIZER", organizer)` (missing `twistedcaldav/ical.py`) — add an
organizer property where none existed. -/
def addOrganizerProperty (org : String) (cal : Calendar) : Calendar :=
  { cal with organizer := some org }

/-- What `MailHandler.inbound` does with one message. -/
inductive InboundResult where
  | bounceProcessed (calBody : String)
  | injected (token organizer attendee : String) (cal : Calendar)
  | droppedUnusable
  | droppedUnknownToken (token : String)
  | droppedException
deriving Repr, DecidableEq

/-- `MailHandler.inbound` (mail.py lines 955-977) without its `try`/`except`:
classification, then for a usable DSN the hand-off to `processDSN` with the
calendar payload (its further processing is outside the claims and is not
modelled past that point), and for a reply the back half of `processReply`
(lines 930-952): parse the payload, look the token up, restrict the attendee
list, force the organizer, and hand `(organizer, attendee, calendar)` to the
injection function `fn`. -/
def inboundE (parseCal : String → Except String Calendar) (db : List TokenRow)
    (msg : Message) : Except String InboundResult :=
  match classifyE msg with
  | .error e => .error e
  | .ok .unusable => .ok .droppedUnusable
  | .ok (.bounce calBody) => .ok (.bounceProcessed calBody)
  | .ok (.reply token calBody) =>
    match parseCal calBody with
    | .error e => .error e
    | .ok calendar =>
      match lookupByToken db token with
      | none => .ok (.droppedUnknownToken token)
      | some (org, att, _icaluid) =>
        let cal1 := removeAllButOneAttendee att calendar
        let cal2 :=
          match getOrganizerProperty cal1 with
          | none => addOrganizerProperty org cal1
          | some _ => setOrganizerValue org cal1
        .ok (.injected token org att cal2)

/-- `MailHandler.inbound` with its `try`/`except Exception` (mail.py lines
956, 974-976): any exception anywhere in the pipeline becomes a logged drop. -/
def inbound (parseCal : String → Except String Calendar) (db : List TokenRow)
    (msg : Message) : InboundResult :=
  match inboundE parseCal db msg with
  | .ok r => r
  | .error _ => .droppedException

/-! ## HTTP digest/basic authentication (`calcHA1`, `calcResponse`,
`AuthorizedHTTPGetter.handleStatus_401`, mail.py lines 302-521)

The hash primitives come from `hashlib` and `base64`; they are kept opaque:
`hash` is the raw digest of the bytes fed to the hash object, `hexEnc` is
`.encode('hex')`, and `b64` is `base64.encodestring` with the trailing
newlines already removed. -/
structure Crypto where
  hash : String → String
  hexEnc : String → String
  b64 : String → String

/-- The `algorithms` table (mail.py lines 302-306): digest objects exist for
`md5`, `md5-sess` and `sha` only; any other key (including a missing
`algorithm` parameter, i.e. `None`) raises KeyError. -/
def algorithmsHas (alg : Option String) : Bool :=
  alg == some "md5" || alg == some "md5-sess" || alg == some "sha"

/-- Python `m.update(v)` where `v` may be `None`: updating a hash with `None`
raises TypeError. -/
def updArg : Option String → Except String String
  | some s => .ok s
  | none => .error "TypeError: update() argument must be a string"

/-- `calcHA1` (mail.py lines 309-359) as `handleStatus_401` calls it (`preHA1`
is never supplied): `HA1 = H(user:realm:password)`, re-keyed with
`nonce`/`cnonce` for `md5-sess`, hex-encoded at the end.  `realm`, `nonce` and
`cnonce` arrive straight from `details.get(...)` and may be absent. -/
def calcHA1E (cr : Crypto) (alg : Option String) (user : String)
    (realm : Option String) (pswd : String) (nonce cnonce : Option String) :
    Except String String :=
  if !algorithmsHas alg then .error "KeyError" else
  match updArg realm with
  | .error e => .error e
  | .ok r =>
    let ha1 := cr.hash (user ++ ":" ++ r ++ ":" ++ pswd)
    if alg = some "md5-sess" then
      match updArg nonce, updArg cnonce with
      | .ok n, .ok c => .ok (cr.hexEnc (cr.hash (ha1 ++ ":" ++ n ++ ":" ++ c)))
      | .error e, _ => .error e
      | _, .error e => .error e
    else .ok (cr.hexEnc ha1)

/-- `calcResponse` (mail.py lines 362-396): `HA2 = H(method:uri)` (with the
entity hash appended for `auth-int`), then the response hash over
`HA1:nonce:HA2`, with the `nc:cnonce:qop:` block inserted only when all three
of `pszNonceCount`, `pszCNonce` and `pszQop` are truthy. -/
def calcResponseE (cr : Crypto) (ha1 : String) (alg : Option String)
    (nonce nc cnonce qop : Option String) (method url : String)
    (hEntity : Option String) : Except String String :=
  if !algorithmsHas alg then .error "KeyError" else
  let base := method ++ ":" ++ url
  match (if qop = some "auth-int" then
          (updArg hEntity).map fun e => base ++ ":" ++ e
        else .ok base) with
  | .error e => .error e
  | .ok base2 =>
    let ha2 := cr.hexEnc (cr.hash base2)
    match updArg nonce with
    | .error e => .error e
    | .ok n =>
      let mid :=
        if pyTruthy nc ∧ pyTruthy cnonce ∧ pyTruthy qop then
          pyFormat nc ++ ":" ++ pyFormat cnonce ++ ":" ++ pyFormat qop ++ ":"
        else ""
      .ok (cr.hexEnc (cr.hash (ha1 ++ ":" ++ n ++ ":" ++ mid ++ ha2)))

/-- The quote stripper `unq` inside `handleStatus_401` (mail.py lines
428-431): Python indexing `s[0]` raises IndexError on the empty string. -/
def unqE (s : String) : Except String String :=
  match s.data with
  | [] => .error "IndexError: string index out of range"
  | c :: _ =>
    if c = '"' ∧ s.data.getLast? = some '"' then
      .ok (String.mk (s.data.drop 1).dropLast)
    else .ok s

/-- Python dict assignment `details[k] = v` on an association list. -/
def dictInsert (k v : String) : List (String × String) → List (String × String)
  | [] => [(k, v)]
  | (k', v') :: rest => if k' = k then (k, v) :: rest else (k', v') :: dictInsert k v rest

/-- Python `details.get(k)`. -/
def dictGet (k : String) (d : List (String × String)) : Option String :=
  (d.find? fun p => p.1 == k).map fun p => p.2

/-- The parameter loop of the digest branch (mail.py lines 432-434): split the
challenge tail on commas, each piece on its first `=` (a piece without `=`
raises ValueError), strip both halves, unquote the value, and assign into
`details`. -/
def parseParamsGo : List (List Char) → List (String × String) →
    Except String (List (String × String))
  | [], det => .ok det
  | p :: ps, det =>
    match breakAtFirst '=' p with
    | none => .error "ValueError: need more than 1 value to unpack"
    | some (k, v) =>
      match unqE (pyStrip (String.mk v)) with
      | .error e => .error e
      | .ok uv => parseParamsGo ps (dictInsert (pyStrip (String.mk k)) uv det)

/-- Parameter parsing of one `digest ` challenge item (after dropping the
7-character scheme tag), updating the accumulated `details` dict. -/
def parseDigestParams (s : String) (det : List (String × String)) :
    Except String (List (String × String)) :=
  parseParamsGo (splitCh ',' s.data) det

/-- The `for item in wwwauth` loop of `handleStatus_401` (mail.py lines
422-434): an item starting with `basic ` marks Basic available, an item
starting with `digest ` marks Digest available and has its parameters parsed
into the shared `details` dict. -/
def scanChallengeGo : List String → Bool → Bool → List (String × String) →
    Except String (Bool × Bool × List (String × String))
  | [], basicB, digestB, det => .ok (basicB, digestB, det)
  | item :: rest, basicB, digestB, det =>
    let basicB' := if "basic ".data.isPrefixOf item.data then true else basicB
    if "digest ".data.isPrefixOf item.data then
      match parseDigestParams (String.mk (item.data.drop 7)) det with
      | .error e => .error e
      | .ok det' => scanChallengeGo rest basicB' true det'
    else scanChallengeGo rest basicB' digestB det

/-- Scan of the full `WWW-Authenticate` item list. -/
def scanChallenge (wwwauth : List String) :
    Except String (Bool × Bool × List (String × String)) :=
  scanChallengeGo wwwauth false false []

/-- The slice of the page-getter factory state that `handleStatus_401` reads
and writes: the configured credentials (`username` may be unset), the
`retried` marker, and the request method and URL. -/
structure HTTPFactory where
  username : Option String
  password : String
  retried : Bool
  method : String
  url : String
deriving Repr, DecidableEq

/-- What `handleStatus_401` does: fail the deferred with `Unauthorized`, or
reconnect and retry the POST once with the computed `Authorization` header. -/
inductive AuthOutcome where
  | failUnauthorized
  | retryWithAuth (factory : HTTPFactory) (authHeader : String)
deriving Repr, DecidableEq

/-- The digest `Authorization` header format strings (mail.py lines 459-487):
with a truthy `qop` the header also carries `cnonce`, `qop` and `nc`, each
taken from `details` and formatted with `%s` (so a missing value prints as the
literal `None`). -/
def digestHeader (user : String) (details : List (String × String))
    (url digest : String) : String :=
  if pyTruthy (dictGet "qop" details) then
    "Digest " ++ ("username=\"" ++ user ++ "\", realm=\"" ++
      pyFormat (dictGet "realm" details) ++ "\", nonce=\"" ++
      pyFormat (dictGet "nonce" details) ++ "\", uri=\"" ++ url ++
      "\", response=" ++ digest ++ ", algorithm=" ++
      pyFormat (dictGet "algorithm" details) ++ ", cnonce=\"" ++
      pyFormat (dictGet "cnonce" details) ++ "\", qop=" ++
      pyFormat (dictGet "qop" details) ++ ", nc=" ++
      pyFormat (dictGet "nc" details))
  else
    "Digest " ++ ("username=\"" ++ user ++ "\", realm=\"" ++
      pyFormat (dictGet "realm" details) ++ "\", nonce=\"" ++
      pyFormat (dictGet "nonce" details) ++ "\", uri=\"" ++ url ++
      "\", response=" ++ digest ++ ", algorithm=" ++
      pyFormat (dictGet "algorithm" details))

/-- The basic `Authorization` header (mail.py lines 502-504). -/
def basicHeader (cr : Crypto) (user pswd : String) : String :=
  "Basic " ++ cr.b64 (user ++ ":" ++ pswd)

/-- The digest computation exactly as `handleStatus_401` invokes it (mail.py
lines 440-457): `calcHA1` over the configured credentials and the challenge's
`realm`/`nonce`/`cnonce`, then `calcResponse` with `nc`, `cnonce` and `qop`
all taken from the server's challenge parameters and `pszHEntity = None`. -/
def digestFromChallenge (cr : Crypto) (user pswd : String)
    (details : List (String × String)) (method url : String) :
    Except String String :=
  match calcHA1E cr (dictGet "algorithm" details) user (dictGet "realm" details)
      pswd (dictGet "nonce" details) (dictGet "cnonce" details) with
  | .error e => .error e
  | .ok ha1 =>
    calcResponseE cr ha1 (dictGet "algorithm" details) (dictGet "nonce" details)
      (dictGet "nc" details) (dictGet "cnonce" details) (dictGet "qop" details)
      method url none

/-- `AuthorizedHTTPGetter.handleStatus_401` (mail.py lines 403-521): errback
with `Unauthorized` when no username is configured or a retry already
happened; otherwise mark `retried`, scan the challenge, and retry with a
Digest header when Digest was offered with parameters, else with a Basic
header when Basic was offered, else errback with `Unauthorized`. -/
def handleStatus401 (cr : Crypto) (f : HTTPFactory) (wwwauth : List String) :
    Except String AuthOutcome :=
  match f.username with
  | none => .ok .failUnauthorized
  | some user =>
    if f.retried then .ok .failUnauthorized
    else
      let f' := { f with retried := true }
      match scanChallenge wwwauth with
      | .error e => .error e
      | .ok (basicAvailable, digestAvailable, details) =>
        if digestAvailable && !details.isEmpty then
          match digestFromChallenge cr user f.password details f.method f.url with
          | .error e => .error e
          | .ok digest =>
            .ok (.retryWithAuth f' (digestHeader user details f.url digest))
        else if basicAvailable then
          .ok (.retryWithAuth f' (basicHeader cr user f.password))
        else .ok .failUnauthorized

/-! ## Lemmas about the Python-style split -/

theorem splitCh_ne_nil (sep : Char) (l : List Char) : splitCh sep l ≠ [] := by
  cases l with
  | nil => simp [splitCh]
  | cons c rest =>
    simp only [splitCh]
    split
    · simp
    · cases h : splitCh sep rest <;> simp

theorem splitCh_of_not_mem {sep : Char} {l : List Char} (h : sep ∉ l) :
    splitCh sep l = [l] := by
  induction l with
  | nil => rfl
  | cons c rest ih =>
    have hc : ¬(c = sep) := fun hc => h (hc ▸ List.mem_cons_self c rest)
    have hrest : sep ∉ rest := fun hm => h (List.mem_cons_of_mem _ hm)
    rw [splitCh, if_neg hc, ih hrest]

theorem splitCh_append {sep : Char} {a : List Char} (b : List Char)
    (h : sep ∉ a) : splitCh sep (a ++ sep :: b) = a :: splitCh sep b := by
  induction a with
  | nil => simp [splitCh]
  | cons c rest ih =>
    have hc : ¬(c = sep) := fun hc => h (hc ▸ List.mem_cons_self c rest)
    have hrest : sep ∉ rest := fun hm => h (List.mem_cons_of_mem _ hm)
    rw [List.cons_append, splitCh, if_neg hc, ih hrest]

theorem mem_of_mem_splitCh {sep : Char} {s l' : List Char} {x : Char}
    (hl : l' ∈ splitCh sep s) (hx : x ∈ l') : x ∈ s := by
  induction s generalizing l' with
  | nil =>
    simp only [splitCh, List.mem_singleton] at hl
    subst hl
    simp at hx
  | cons c rest ih =>
    simp only [splitCh] at hl
    split at hl
    · rcases List.mem_cons.mp hl with rfl | hl
      · simp at hx
      · exact List.mem_cons_of_mem _ (ih hl hx)
    · rcases hsp : splitCh sep rest with _ | ⟨h0, t0⟩
      · exact absurd hsp (splitCh_ne_nil sep rest)
      · rw [hsp] at hl
        rcases List.mem_cons.mp hl with rfl | hl
        · rcases List.mem_cons.mp hx with rfl | hx
          · exact List.mem_cons_self ..
          · exact List.mem_cons_of_mem _
              (ih (hsp ▸ List.mem_cons_self ..) hx)
        · exact List.mem_cons_of_mem _
            (ih (hsp ▸ List.mem_cons_of_mem _ hl) hx)

/-! ## Lemmas about token extraction -/

theorem extractToken_form {s : String} {p t d : List Char}
    (hdata : s.data = p ++ '+' :: (t ++ '@' :: d))
    (hp1 : '@' ∉ p) (ht1 : '@' ∉ t) (hd1 : '@' ∉ d)
    (hp2 : '+' ∉ p) (ht2 : '+' ∉ t) :
    extractToken s = some (String.mk t) := by
  have hno : '@' ∉ p ++ '+' :: t := by
    intro hm
    rcases List.mem_append.mp hm with hm | hm
    · exact hp1 hm
    · rcases List.mem_cons.mp hm with hm | hm
      · exact absurd hm.symm (by decide)
      · exact ht1 hm
  have e1 : s.data = (p ++ '+' :: t) ++ '@' :: d := by
    rw [hdata]; simp
  have h2 : splitCh '@' ((p ++ '+' :: t) ++ '@' :: d) = [p ++ '+' :: t, d] := by
    rw [splitCh_append _ hno, splitCh_of_not_mem hd1]
  have h3 : splitCh '+' (p ++ '+' :: t) = [p, t] := by
    rw [splitCh_append t hp2, splitCh_of_not_mem ht2]
  simp only [extractToken, e1, h2, h3]

theorem extractToken_no_plus {s : String} (h : ∀ ch ∈ s.data, ch ≠ '+') :
    extractToken s = none := by
  rcases hsp : splitCh '@' s.data with _ | ⟨a, rest⟩
  · simp only [extractToken, hsp]
  rcases rest with _ | ⟨b, rest2⟩
  · simp only [extractToken, hsp]
  rcases rest2 with _ | ⟨x, r3⟩
  · have hplus : '+' ∉ a := fun hm =>
      h '+' (mem_of_mem_splitCh (hsp ▸ List.mem_cons_self ..) hm) rfl
    simp only [extractToken, hsp, splitCh_of_not_mem hplus]
  · simp only [extractToken, hsp]

/-! ## Lemmas about the DSN scan -/

theorem dsnScan_append (a b : List MimePart) (r : Bool) (d c : Option String) :
    dsnScan (a ++ b) (r, d, c) = dsnScan b (dsnScan a (r, d, c)) := by
  induction a generalizing r d c with
  | nil => rfl
  | cons q rest ih =>
    simp only [List.cons_append, dsnScan]
    split_ifs <;> exact ih ..

theorem dsnScan_cons_report {q : MimePart} (l : List MimePart) (r : Bool)
    (d c : Option String) (h : q.contentType = "multipart/report") :
    dsnScan (q :: l) (r, d, c) = dsnScan l (true, d, c) := by
  simp [dsnScan, h]

theorem dsnScan_cons_ds {q : MimePart} (l : List MimePart) (r : Bool)
    (d c : Option String) (h : q.contentType = "message/delivery-status") :
    dsnScan (q :: l) (r, d, c) = dsnScan l (r, some q.payload, c) := by
  simp [dsnScan, h]

theorem dsnScan_cons_cal {q : MimePart} (l : List MimePart) (r : Bool)
    (d c : Option String) (h : q.contentType = "text/calendar") :
    dsnScan (q :: l) (r, d, c) = dsnScan l (r, d, some q.payload) := by
  simp [dsnScan, h]

theorem dsnScan_cons_rfc822 {q : MimePart} (l : List MimePart) (r : Bool)
    (d c : Option String) (h : q.contentType = "message/rfc822") :
    dsnScan (q :: l) (r, d, c) = dsnScan l (r, d, c) := by
  simp [dsnScan, h]

theorem dsnScan_cons_other {q : MimePart} (l : List MimePart) (r : Bool)
    (d c : Option String) (h1 : q.contentType ≠ "multipart/report")
    (h2 : q.contentType ≠ "message/delivery-status")
    (h4 : q.contentType ≠ "text/calendar") :
    dsnScan (q :: l) (r, d, c) = dsnScan l (r, d, c) := by
  by_cases h3 : q.contentType = "message/rfc822" <;>
    simp [dsnScan, h1, h2, h3, h4]

theorem dsnScan_fst_stable (l : List MimePart) (d c : Option String) :
    (dsnScan l (true, d, c)).1 = true := by
  induction l generalizing d c with
  | nil => rfl
  | cons q rest ih =>
    by_cases h1 : q.contentType = "multipart/report"
    · rw [dsnScan_cons_report _ _ _ _ h1]; exact ih ..
    by_cases h2 : q.contentType = "message/delivery-status"
    · rw [dsnScan_cons_ds _ _ _ _ h2]; exact ih ..
    by_cases h4 : q.contentType = "text/calendar"
    · rw [dsnScan_cons_cal _ _ _ _ h4]; exact ih ..
    · rw [dsnScan_cons_other _ _ _ _ h1 h2 h4]; exact ih ..

theorem dsnScan_fst_of_no_report {l : List MimePart}
    (h : ∀ q ∈ l, q.contentType ≠ "multipart/report") (r : Bool)
    (d c : Option String) : (dsnScan l (r, d, c)).1 = r := by
  induction l generalizing r d c with
  | nil => rfl
  | cons q rest ih =>
    have hq := h q (List.mem_cons_self ..)
    have hrest : ∀ x ∈ rest, x.contentType ≠ "multipart/report" :=
      fun x hx => h x (List.mem_cons_of_mem _ hx)
    by_cases h2 : q.contentType = "message/delivery-status"
    · rw [dsnScan_cons_ds _ _ _ _ h2]; exact ih hrest ..
    by_cases h4 : q.contentType = "text/calendar"
    · rw [dsnScan_cons_cal _ _ _ _ h4]; exact ih hrest ..
    · rw [dsnScan_cons_other _ _ _ _ hq h2 h4]; exact ih hrest ..

theorem dsnScan_snd_of_no_ds {l : List MimePart}
    (h : ∀ q ∈ l, q.contentType ≠ "message/delivery-status") (r : Bool)
    (d c : Option String) : (dsnScan l (r, d, c)).2.1 = d := by
  induction l generalizing r d c with
  | nil => rfl
  | cons q rest ih =>
    have hq := h q (List.mem_cons_self ..)
    have hrest : ∀ x ∈ rest, x.contentType ≠ "message/delivery-status" :=
      fun x hx => h x (List.mem_cons_of_mem _ hx)
    by_cases h1 : q.contentType = "multipart/report"
    · rw [dsnScan_cons_report _ _ _ _ h1]; exact ih hrest ..
    by_cases h4 : q.contentType = "text/calendar"
    · rw [dsnScan_cons_cal _ _ _ _ h4]; exact ih hrest ..
    · rw [dsnScan_cons_other _ _ _ _ h1 hq h4]; exact ih hrest ..

theorem dsnScan_thd_of_no_cal {l : List MimePart}
    (h : ∀ q ∈ l, q.contentType ≠ "text/calendar") (r : Bool)
    (d c : Option String) : (dsnScan l (r, d, c)).2.2 = c := by
  induction l generalizing r d c with
  | nil => rfl
  | cons q rest ih =>
    have hq := h q (List.mem_cons_self ..)
    have hrest : ∀ x ∈ rest, x.contentType ≠ "text/calendar" :=
      fun x hx => h x (List.mem_cons_of_mem _ hx)
    by_cases h1 : q.contentType = "multipart/report"
    · rw [dsnScan_cons_report _ _ _ _ h1]; exact ih hrest ..
    by_cases h2 : q.contentType = "message/delivery-status"
    · rw [dsnScan_cons_ds _ _ _ _ h2]; exact ih hrest ..
    · rw [dsnScan_cons_other _ _ _ _ h1 h2 hq]; exact ih hrest ..

theorem dsnScan_fst_of_mem {l : List MimePart} {q : MimePart} (hq : q ∈ l)
    (h : q.contentType = "multipart/report") (r : Bool) (d c : Option String) :
    (dsnScan l (r, d, c)).1 = true := by
  obtain ⟨s, t, rfl⟩ := List.append_of_mem hq
  rw [dsnScan_append]
  rcases hs : dsnScan s (r, d, c) with ⟨r', d', c'⟩
  rw [dsnScan_cons_report _ _ _ _ h, dsnScan_fst_stable]

theorem dsnScan_snd_last {pre suf : List MimePart} {q : MimePart}
    (hq : q.contentType = "message/delivery-status")
    (hsuf : ∀ x ∈ suf, x.contentType ≠ "message/delivery-status")
    (r : Bool) (d c : Option String) :
    (dsnScan (pre ++ q :: suf) (r, d, c)).2.1 = some q.payload := by
  rw [dsnScan_append]
  rcases hs : dsnScan pre (r, d, c) with ⟨r', d', c'⟩
  rw [dsnScan_cons_ds _ _ _ _ hq, dsnScan_snd_of_no_ds hsuf]

theorem dsnScan_thd_last {pre suf : List MimePart} {q : MimePart}
    (hq : q.contentType = "text/calendar")
    (hsuf : ∀ x ∈ suf, x.contentType ≠ "text/calendar")
    (r : Bool) (d c : Option String) :
    (dsnScan (pre ++ q :: suf) (r, d, c)).2.2 = some q.payload := by
  rw [dsnScan_append]
  rcases hs : dsnScan pre (r, d, c) with ⟨r', d', c'⟩
  rw [dsnScan_cons_cal _ _ _ _ hq, dsnScan_thd_of_no_cal hsuf]

/-! ## Lemmas about the Action: search and checkDSN -/

theorem extractActionLines_found {pre : List (List Char)} {line : List Char}
    (rest : List (List Char))
    (hpre : ∀ l' ∈ pre, "action:".data.isPrefixOf (lowerLine l') = false)
    (hline : lowerLine line = "action: failed".data) :
    extractActionLines (pre ++ line :: rest) = .ok (some "failed") := by
  induction pre with
  | nil =>
    simp only [List.nil_append, extractActionLines, hline]
    rfl
  | cons l0 pre' ih =>
    have h0 := hpre l0 (List.mem_cons_self ..)
    simp only [List.cons_append, extractActionLines, h0, Bool.false_eq_true,
      if_false]
    exact ih fun x hx => hpre x (List.mem_cons_of_mem _ hx)

theorem checkDSNE_not_dsn {m : MimePart}
    (h : (∀ q ∈ walk m, q.contentType ≠ "multipart/report")
       ∨ (∀ q ∈ walk m, q.contentType ≠ "message/delivery-status")) :
    checkDSNE m = .ok (false, none, none) := by
  rcases hscan : dsnScan (walk m) (false, none, none) with ⟨b, d, c⟩
  rcases h with h | h
  · have h1 : b = false := by
      have := dsnScan_fst_of_no_report h false none none
      rw [hscan] at this
      exact this
    subst h1
    simp only [checkDSNE, hscan]
  · have h1 : d = none := by
      have := dsnScan_snd_of_no_ds h false none none
      rw [hscan] at this
      exact this
    subst h1
    cases b <;> simp only [checkDSNE, hscan]

theorem checkDSNE_dsn_failed {m : MimePart} {dsPre dsSuf : List MimePart}
    {dsPart : MimePart} {aPre : List (List Char)} {aLine : List Char}
    {aRest : List (List Char)}
    (hrep : ∃ q ∈ walk m, q.contentType = "multipart/report")
    (hdecomp : walk m = dsPre ++ dsPart :: dsSuf)
    (hds : dsPart.contentType = "message/delivery-status")
    (hsuf : ∀ x ∈ dsSuf, x.contentType ≠ "message/delivery-status")
    (hsplit : splitCh '\n' dsPart.payload.data = aPre ++ aLine :: aRest)
    (haPre : ∀ l' ∈ aPre, "action:".data.isPrefixOf (lowerLine l') = false)
    (haLine : lowerLine aLine = "action: failed".data) :
    checkDSNE m = .ok (true, some "failed",
      (dsnScan (walk m) (false, none, none)).2.2) := by
  rcases hscan : dsnScan (walk m) (false, none, none) with ⟨b, d, c⟩
  obtain ⟨q, hqmem, hqct⟩ := hrep
  have h1 : b = true := by
    have := dsnScan_fst_of_mem hqmem hqct false none none
    rw [hscan] at this
    exact this
  have h2 : d = some dsPart.payload := by
    have := @dsnScan_snd_last dsPre dsSuf dsPart hds hsuf false none none
    rw [← hdecomp, hscan] at this
    exact this
  subst h1 h2
  have h3 : extractActionE dsPart.payload = .ok (some "failed") := by
    rw [extractActionE, hsplit]
    exact extractActionLines_found aRest haPre haLine
  simp only [checkDSNE, hscan, h3]

/-! ## Lemmas about the token table -/

theorem matchesTriple_refresh (o a u t : String) (d : Int) (r : TokenRow) :
    matchesTriple o a u (if r.token == t then { r with datestamp := d } else r)
      = matchesTriple o a u r := by
  split <;> rfl

theorem find?_refreshToken (o a u t : String) (d : Int) (db : List TokenRow) :
    (refreshToken t d db).find? (matchesTriple o a u)
      = (db.find? (matchesTriple o a u)).map
          (fun r => if r.token == t then { r with datestamp := d } else r) := by
  induction db with
  | nil => rfl
  | cons r rest ih =>
    simp only [refreshToken] at ih ⊢
    rw [List.map_cons]
    by_cases h : matchesTriple o a u r = true
    · rw [List.find?_cons_of_pos _ ((matchesTriple_refresh o a u t d r).trans h),
        List.find?_cons_of_pos _ h]
      rfl
    · rw [List.find?_cons_of_neg _ (by rw [matchesTriple_refresh o a u t d r]; exact h),
        List.find?_cons_of_neg _ h, ih]

theorem length_refreshToken (t : String) (d : Int) (db : List TokenRow) :
    (refreshToken t d db).length = db.length :=
  List.length_map ..

theorem countP_refreshToken (o a u t : String) (d : Int) (db : List TokenRow) :
    (refreshToken t d db).countP (matchesTriple o a u)
      = db.countP (matchesTriple o a u) := by
  induction db with
  | nil => rfl
  | cons r rest ih =>
    simp only [refreshToken, List.map_cons, List.countP_cons] at ih ⊢
    rw [ih, matchesTriple_refresh]

theorem matchesTriple_iff {o a u : String} {r : TokenRow} :
    matchesTriple o a u r = true ↔ r.organizer = o ∧ r.attendee = a ∧ r.icaluid = u := by
  simp only [matchesTriple, Bool.and_eq_true, beq_iff_eq]
  tauto

theorem mem_purgeOldTokens {db : List TokenRow} {cutoff : Int} {r : TokenRow} :
    r ∈ purgeOldTokens db cutoff ↔ r ∈ db ∧ cutoff ≤ r.datestamp := by
  simp [purgeOldTokens, List.mem_filter, Int.not_lt]

theorem lookupByToken_eq_none_iff (db : List TokenRow) (t : String) :
    lookupByToken db t = none ↔ db.countP (fun r => r.token == t) ≠ 1 := by
  have hlen : ((db.filter fun r => r.token == t).map
      (fun r => (r.organizer, r.attendee, r.icaluid))).length
        = db.countP (fun r => r.token == t) := by
    rw [List.length_map, ← List.countP_eq_length_filter]
  rcases hfm : (db.filter fun r => r.token == t).map
      (fun r => (r.organizer, r.attendee, r.icaluid)) with _ | ⟨x, xs⟩
  · rw [hfm] at hlen
    simp only [lookupByToken, hfm]
    simp [← hlen]
  · rcases xs with _ | ⟨y, ys⟩
    · rw [hfm] at hlen
      simp only [lookupByToken, hfm]
      simp [← hlen]
    · rw [hfm] at hlen
      simp only [lookupByToken, hfm]
      simp [← hlen]

/-! ## Claim theorems -/

/-- Claim C2: for every triple and every store state, requesting a token twice
in succession with the sequence `outbound` uses (`getToken`, then `createToken`
only on a miss) yields the same token both times; the second request updates
the DATESTAMP of the stored row for the triple to the current date and inserts
no new row. -/
theorem c2_token_idempotent (db : List TokenRow) (org att uid fresh1 fresh2 : String)
    (d1 d2 : Int) :
    (getOrCreateToken (getOrCreateToken db org att uid fresh1 d1).2 org att uid fresh2 d2).1
      = (getOrCreateToken db org att uid fresh1 d1).1
  ∧ (getOrCreateToken (getOrCreateToken db org att uid fresh1 d1).2 org att uid fresh2 d2).2.length
      = (getOrCreateToken db org att uid fresh1 d1).2.length
  ∧ ∃ r ∈ (getOrCreateToken (getOrCreateToken db org att uid fresh1 d1).2 org att uid fresh2 d2).2,
      r.token = (getOrCreateToken db org att uid fresh1 d1).1 ∧ r.organizer = org ∧
      r.attendee = att ∧ r.icaluid = uid ∧ r.datestamp = d2 := by
  rcases hf : db.find? (matchesTriple org att uid) with _ | r0
  · -- miss: the first request inserts a fresh row
    have h1 : getOrCreateToken db org att uid fresh1 d1
        = (fresh1, db ++ [⟨fresh1, org, att, uid, d1⟩]) := by
      simp only [getOrCreateToken, getToken, hf, createToken]
    have hmatch : matchesTriple org att uid ⟨fresh1, org, att, uid, d1⟩ = true :=
      matchesTriple_iff.mpr ⟨rfl, rfl, rfl⟩
    have hfind2 : List.find? (matchesTriple org att uid)
          (db ++ [(⟨fresh1, org, att, uid, d1⟩ : TokenRow)])
        = some (⟨fresh1, org, att, uid, d1⟩ : TokenRow) := by
      rw [List.find?_append, hf]
      simp [hmatch]
    have h2 : getOrCreateToken (db ++ [(⟨fresh1, org, att, uid, d1⟩ : TokenRow)]) org att uid fresh2 d2
        = (fresh1, refreshToken fresh1 d2 (db ++ [(⟨fresh1, org, att, uid, d1⟩ : TokenRow)])) := by
      simp only [getOrCreateToken, getToken, hfind2]
    rw [h1]
    rw [h2]
    refine ⟨rfl, length_refreshToken .., ?_⟩
    refine ⟨⟨fresh1, org, att, uid, d2⟩, ?_, rfl, rfl, rfl, rfl, rfl⟩
    have hmem : (⟨fresh1, org, att, uid, d1⟩ : TokenRow) ∈
        db ++ [⟨fresh1, org, att, uid, d1⟩] :=
      List.mem_append_right _ (List.mem_singleton.mpr rfl)
    have := List.mem_map_of_mem
      (fun r : TokenRow => if r.token == fresh1 then { r with datestamp := d2 } else r) hmem
    simpa [refreshToken] using this
  · -- hit: both requests refresh the existing row
    have hp := List.find?_some hf
    have hmem := List.mem_of_find?_eq_some hf
    obtain ⟨ho, ha, hu⟩ := matchesTriple_iff.mp hp
    have h1 : getOrCreateToken db org att uid fresh1 d1
        = (r0.token, refreshToken r0.token d1 db) := by
      simp only [getOrCreateToken, getToken, hf]
    have hfind2 : (refreshToken r0.token d1 db).find? (matchesTriple org att uid)
        = some { r0 with datestamp := d1 } := by
      rw [find?_refreshToken, hf]
      simp
    have h2 : getOrCreateToken (refreshToken r0.token d1 db) org att uid fresh2 d2
        = (r0.token, refreshToken r0.token d2 (refreshToken r0.token d1 db)) := by
      simp only [getOrCreateToken, getToken, hfind2]
    rw [h1]
    rw [h2]
    refine ⟨rfl, by simp [length_refreshToken], ?_⟩
    refine ⟨{ r0 with datestamp := d2 }, ?_, rfl, ho, ha, hu, rfl⟩
    have hmem1 : ({ r0 with datestamp := d1 } : TokenRow) ∈ refreshToken r0.token d1 db := by
      have := List.mem_map_of_mem
        (fun r : TokenRow => if r.token == r0.token then { r with datestamp := d1 } else r) hmem
      simpa [refreshToken] using this
    have := List.mem_map_of_mem
      (fun r : TokenRow => if r.token == r0.token then { r with datestamp := d2 } else r) hmem1
    simpa [refreshToken] using this

/-- Claim C8: `purgeOldTokens` deletes exactly the rows whose DATESTAMP is
strictly before the cutoff and leaves every row at or after the cutoff; with
the constructor-time cutoff `today - InvitationDaysToLive` (mail.py lines
817-823) a row whose datestamp was just refreshed to today is never removed. -/
theorem c8_purge_exact :
    (∀ (db : List TokenRow) (cutoff : Int) (r : TokenRow),
        r ∈ purgeOldTokens db cutoff ↔ r ∈ db ∧ cutoff ≤ r.datestamp)
  ∧ (∀ (db : List TokenRow) (today : Int) (days : Nat) (r : TokenRow),
        r ∈ db → r.datestamp = today →
        r ∈ purgeOldTokens db (mailHandlerPurgeCutoff today days)) := by
  refine ⟨fun db cutoff r => mem_purgeOldTokens, fun db today days r hmem hdate => ?_⟩
  refine mem_purgeOldTokens.mpr ⟨hmem, ?_⟩
  rw [hdate]
  rw [mailHandlerPurgeCutoff]
  omega

/-- Witness for C8 at a concrete table: a row dated today survives the
startup purge with a 3-day retention window. -/
theorem c8_purge_exact_witness :
    (⟨"t", "o", "a", "u", (5 : Int)⟩ : TokenRow) ∈
      purgeOldTokens [⟨"t", "o", "a", "u", (5 : Int)⟩] (mailHandlerPurgeCutoff 5 3) :=
  c8_purge_exact.2 [⟨"t", "o", "a", "u", (5 : Int)⟩] 5 3 ⟨"t", "o", "a", "u", (5 : Int)⟩
    (List.mem_singleton.mpr rfl) rfl

/-- Claim C9: every table state reachable by the gateway's own operations has
at most one row per (ORGANIZER, ATTENDEE, ICALUID) triple; in particular
repeated token requests for one triple converge on a single stored row. -/
theorem c9_unique_triple_invariant {db : List TokenRow} (h : Reachable db)
    (org att uid : String) : db.countP (matchesTriple org att uid) ≤ 1 := by
  induction h with
  | init => simp
  | step db0 op hdb ih =>
    cases op with
    | getOrCreate o a u f today =>
      show (getOrCreateToken db0 o a u f today).2.countP (matchesTriple org att uid) ≤ 1
      rcases hf : db0.find? (matchesTriple o a u) with _ | r0
      · have h1 : (getOrCreateToken db0 o a u f today).2
            = db0 ++ [⟨f, o, a, u, today⟩] := by
          simp only [getOrCreateToken, getToken, hf, createToken]
        rw [h1, List.countP_append]
        by_cases hq : o = org ∧ a = att ∧ u = uid
        · obtain ⟨rfl, rfl, rfl⟩ := hq
          have h0 : db0.countP (matchesTriple o a u) = 0 :=
            List.countP_eq_zero.mpr (List.find?_eq_none.mp hf)
          rw [h0]
          simp [List.countP_cons, matchesTriple]
        · have hrow : ¬(matchesTriple org att uid ⟨f, o, a, u, today⟩ = true) := by
            rw [matchesTriple_iff]
            exact fun hx => hq ⟨hx.1, hx.2.1, hx.2.2⟩
          have h0 : List.countP (matchesTriple org att uid) [⟨f, o, a, u, today⟩] = 0 :=
            List.countP_eq_zero.mpr
              (by intro x hx; rw [List.mem_singleton] at hx; subst hx; exact hrow)
          rw [h0]
          simpa using ih
      · have h1 : (getOrCreateToken db0 o a u f today).2
            = refreshToken r0.token today db0 := by
          simp only [getOrCreateToken, getToken, hf]
        rw [h1, countP_refreshToken]
        exact ih
    | deleteTok t =>
      show (deleteToken db0 t).countP (matchesTriple org att uid) ≤ 1
      exact le_trans ((List.filter_sublist _).countP_le _) ih
    | purge b =>
      show (purgeOldTokens db0 b).countP (matchesTriple org att uid) ≤ 1
      exact le_trans ((List.filter_sublist _).countP_le _) ih

/-- Witness for C9: after two token requests for the same triple (the second
with a different fresh uuid) the table still holds at most one row for it. -/
theorem c9_unique_triple_invariant_witness :
    (applyOp (applyOp [] (.getOrCreate "o" "a" "u" "T1" 1))
        (.getOrCreate "o" "a" "u" "T2" 2)).countP (matchesTriple "o" "a" "u") ≤ 1 :=
  c9_unique_triple_invariant
    (Reachable.step _ _ (Reachable.step _ _ Reachable.init)) "o" "a" "u"

/-- Claim C10: `lookupByToken` returns a not-found result exactly when the
number of rows carrying the token differs from one — no rows, or two or more
rows sharing it; a reply message carrying such a token is dropped as an
unknown sender rather than resolved to either row. -/
theorem c10_lookup_ambiguous :
    (∀ (db : List TokenRow) (t : String),
        lookupByToken db t = none ↔ db.countP (fun r => r.token == t) ≠ 1)
  ∧ (∀ (parseCal : String → Except String Calendar) (db : List TokenRow)
        (msg : Message) (t b : String) (cal : Calendar),
        classifyE msg = .ok (.reply t b) →
        parseCal b = .ok cal →
        db.countP (fun r => r.token == t) ≠ 1 →
        inbound parseCal db msg = .droppedUnknownToken t) := by
  refine ⟨lookupByToken_eq_none_iff, fun parseCal db msg t b cal hcls hparse hcount => ?_⟩
  have hl : lookupByToken db t = none := (lookupByToken_eq_none_iff db t).mpr hcount
  simp only [inbound, inboundE, hcls, hparse, hl]

/-- Witness for C10 at a concrete table with two rows sharing one token: the
reply carrying that token is dropped rather than resolved to either row. -/
theorem c10_lookup_ambiguous_witness :
    inbound (fun _ => .ok ⟨[], none⟩)
        [⟨"tok", "o1", "a1", "u1", 0⟩, ⟨"tok", "o2", "a2", "u2", 0⟩]
        ⟨"cal+tok@example.com", .mk "text/calendar" "BODY" []⟩
      = .droppedUnknownToken "tok" :=
  c10_lookup_ambiguous.2 _ _ _ "tok" "BODY" ⟨[], none⟩ rfl rfl (by decide)

/-- Claim C1: for every inbound message classified as a Reply whose token
resolves in the token store to `(org, att, uid)`, the payload handed to
injection by `processReply` has exactly one ATTENDEE property, valued `att`,
and an ORGANIZER property valued `org`, regardless of the attendees or
organizer value the untrusted payload carried; when the payload carried no
ORGANIZER property at all, one valued `org` is added. -/
theorem c1_reply_rewrite (parseCal : String → Except String Calendar)
    (db : List TokenRow) (msg : Message) (t b : String) (cal : Calendar)
    (org att uid : String)
    (hcls : classifyE msg = .ok (.reply t b))
    (hparse : parseCal b = .ok cal)
    (hlook : lookupByToken db t = some (org, att, uid)) :
    ∃ cal2, inbound parseCal db msg = .injected t org att cal2 ∧
      cal2.attendees = [att] ∧ cal2.organizer = some org ∧
      (cal.organizer = none → cal2.organizer = some org) := by
  refine ⟨{ cal with attendees := [att], organizer := some org }, ?_, rfl, rfl,
    fun _ => rfl⟩
  simp only [inbound, inboundE, hcls, hparse, hlook]
  cases horg : cal.organizer <;>
    simp [removeAllButOneAttendee, getOrganizerProperty, addOrganizerProperty,
      setOrganizerValue, horg]

/-- Witness for C1 at a concrete message: an untrusted reply carrying two
attendees and a forged organizer is rewritten to the looked-up attendee and
true organizer before injection. -/
theorem c1_reply_rewrite_witness :
    ∃ cal2,
      inbound
          (fun _ => .ok ⟨["mailto:evil@example.com", "mailto:b@y.example"],
            some "mailto:evil@example.com"⟩)
          [⟨"tok", "mailto:a@x.example", "mailto:b@y.example", "EVT-1", 0⟩]
          ⟨"cal+tok@example.com", .mk "text/calendar" "BODY" []⟩
        = .injected "tok" "mailto:a@x.example" "mailto:b@y.example" cal2 ∧
      cal2.attendees = ["mailto:b@y.example"] ∧
      cal2.organizer = some "mailto:a@x.example" ∧
      ((⟨["mailto:evil@example.com", "mailto:b@y.example"],
          some "mailto:evil@example.com"⟩ : Calendar).organizer = none →
        cal2.organizer = some "mailto:a@x.example") :=
  c1_reply_rewrite _ _ _ "tok" "BODY" _ "mailto:a@x.example" "mailto:b@y.example"
    "EVT-1" rfl rfl rfl

/-- Claim C7: the inbound entry point never raises — it either returns the
pipeline's own outcome or, when any stage of the pipeline raises (here: the
IndexError from the `Action:` parse or a calendar parse error), converts the
exception into a logged drop.  The closing conjuncts exhibit a concrete
malformed DSN on which the unprotected pipeline does raise and `inbound`
still returns a drop. -/
theorem c7_inbound_never_raises :
    (∀ (parseCal : String → Except String Calendar) (db : List TokenRow)
        (msg : Message),
        inboundE parseCal db msg = .ok (inbound parseCal db msg)
          ∨ inbound parseCal db msg = .droppedException)
  ∧ inboundE (fun s => .error s) []
      ⟨"x@y", .mk "multipart/report" ""
        [.mk "message/delivery-status" "Action:failed" []]⟩
      = .error "IndexError: list index out of range"
  ∧ inbound (fun s => .error s) []
      ⟨"x@y", .mk "multipart/report" ""
        [.mk "message/delivery-status" "Action:failed" []]⟩
      = .droppedException := by
  refine ⟨fun parseCal db msg => ?_, rfl, rfl⟩
  rcases h : inboundE parseCal db msg with e | r
  · exact Or.inr (by simp [inbound, h])
  · exact Or.inl (by simp [inbound, h])

/-- Claim C3: a non-DSN message whose To address has the shape
`pre+token@domain` and which contains a `text/calendar` part classifies as a
Reply carrying exactly that token; a non-DSN message whose address has no `+`
segment, or one without a `text/calendar` part, classifies as Unusable and is
dropped with no injection attempt. -/
theorem c3_reply_classification :
    (∀ (msg : Message) (p t d : List Char),
        ((∀ q ∈ walk msg.part, q.contentType ≠ "multipart/report")
          ∨ (∀ q ∈ walk msg.part, q.contentType ≠ "message/delivery-status")) →
        msg.toAddr.data = p ++ '+' :: (t ++ '@' :: d) →
        '@' ∉ p → '@' ∉ t → '@' ∉ d → '+' ∉ p → '+' ∉ t → t ≠ [] →
        (∃ q ∈ walk msg.part, q.contentType = "text/calendar") →
        ∃ b, classify msg = .reply (String.mk t) b)
  ∧ (∀ msg : Message,
        ((∀ q ∈ walk msg.part, q.contentType ≠ "multipart/report")
          ∨ (∀ q ∈ walk msg.part, q.contentType ≠ "message/delivery-status")) →
        (∀ ch ∈ msg.toAddr.data, ch ≠ '+') →
        classify msg = .unusable ∧
          ∀ (parseCal : String → Except String Calendar) (db : List TokenRow),
            inbound parseCal db msg = .droppedUnusable)
  ∧ (∀ msg : Message,
        ((∀ q ∈ walk msg.part, q.contentType ≠ "multipart/report")
          ∨ (∀ q ∈ walk msg.part, q.contentType ≠ "message/delivery-status")) →
        (∀ q ∈ walk msg.part, q.contentType ≠ "text/calendar") →
        classify msg = .unusable ∧
          ∀ (parseCal : String → Except String Calendar) (db : List TokenRow),
            inbound parseCal db msg = .droppedUnusable) := by
  refine ⟨?_, ?_, ?_⟩
  · intro msg p t d hnod hdata hp1 ht1 hd1 hp2 ht2 htne hcal
    have hdsn := checkDSNE_not_dsn hnod
    have htok := extractToken_form hdata hp1 ht1 hd1 hp2 ht2
    have haddr : ¬(msg.toAddr = "") := by
      intro h0
      rw [h0] at hdata
      simp at hdata
    have htne2 : ¬(String.mk t = "") := by
      intro h0
      apply htne
      have h1 : (String.mk t).data = ("" : String).data := by rw [h0]
      exact h1
    obtain ⟨q, hqmem, hqct⟩ := hcal
    have hsome : ((walk msg.part).find?
        (fun p => p.contentType == "text/calendar")).isSome :=
      List.find?_isSome.mpr ⟨q, hqmem, by simp [hqct]⟩
    obtain ⟨q', hq'⟩ := Option.isSome_iff_exists.mp hsome
    refine ⟨q'.payload, ?_⟩
    simp only [classify, classifyE, hdsn, if_neg haddr, htok, if_neg htne2,
      firstCalendarBody, hq']
    simp
  · intro msg hnod hplus
    have hdsn := checkDSNE_not_dsn hnod
    have hcls : classifyE msg = .ok .unusable := by
      by_cases haddr : msg.toAddr = ""
      · simp [classifyE, hdsn, haddr]
      · have htok := extractToken_no_plus hplus
        simp [classifyE, hdsn, haddr, htok]
    exact ⟨by simp [classify, hcls],
      fun parseCal db => by simp [inbound, inboundE, hcls]⟩
  · intro msg hnod hnocal
    have hdsn := checkDSNE_not_dsn hnod
    have hfb : firstCalendarBody msg.part = none := by
      have hfind : (walk msg.part).find?
          (fun p => p.contentType == "text/calendar") = none :=
        List.find?_eq_none.mpr (fun q hq => by simp [hnocal q hq])
      simp [firstCalendarBody, hfind]
    have hcls : classifyE msg = .ok .unusable := by
      by_cases haddr : msg.toAddr = ""
      · simp [classifyE, hdsn, haddr]
      · rcases htok : extractToken msg.toAddr with _ | token
        · simp [classifyE, hdsn, haddr, htok]
        · by_cases htz : token = ""
          · simp [classifyE, hdsn, haddr, htok, htz]
          · simp [classifyE, hdsn, haddr, htok, htz, hfb]
    exact ⟨by simp [classify, hcls],
      fun parseCal db => by simp [inbound, inboundE, hcls]⟩

/-- Witness for C3 at concrete messages: `cal+tok@example.com` with a calendar
part classifies Reply with token `tok`; an address with no `+` segment, and a
message without a calendar part, classify Unusable and are dropped. -/
theorem c3_reply_classification_witness :
    (∃ b, classify ⟨"cal+tok@example.com", .mk "text/calendar" "BODY" []⟩
        = .reply "tok" b)
  ∧ classify ⟨"caltok@example.com", .mk "text/calendar" "BODY" []⟩ = .unusable
  ∧ classify ⟨"cal+tok@example.com", .mk "text/plain" "hi" []⟩ = .unusable := by
  refine ⟨?_, ?_, ?_⟩
  · exact c3_reply_classification.1
      ⟨"cal+tok@example.com", .mk "text/calendar" "BODY" []⟩
      "cal".data "tok".data "example.com".data
      (Or.inl (by decide)) rfl (by decide) (by decide) (by decide) (by decide)
      (by decide) (by decide)
      ⟨.mk "text/calendar" "BODY" [], by simp [walk, walkList], rfl⟩
  · exact (c3_reply_classification.2.1
      ⟨"caltok@example.com", .mk "text/calendar" "BODY" []⟩
      (Or.inl (by decide)) (by decide)).1
  · exact (c3_reply_classification.2.2
      ⟨"cal+tok@example.com", .mk "text/plain" "hi" []⟩
      (Or.inl (by decide)) (by decide)).1

/-- Claim C4: a message containing a `multipart/report` part and a
`message/delivery-status` part whose first `Action:` line (case-insensitively)
carries the value `failed`, together with a non-empty `text/calendar` part, is
classified as a Bounce and processed with that calendar payload; the same
without any `text/calendar` part is classified Unusable and dropped. -/
theorem c4_bounce_classification :
    (∀ (parseCal : String → Except String Calendar) (db : List TokenRow)
        (msg : Message) (dsPre dsSuf cPre cSuf : List MimePart)
        (dsPart cPart : MimePart) (aPre : List (List Char)) (aLine : List Char)
        (aRest : List (List Char)),
        (∃ q ∈ walk msg.part, q.contentType = "multipart/report") →
        walk msg.part = dsPre ++ dsPart :: dsSuf →
        dsPart.contentType = "message/delivery-status" →
        (∀ x ∈ dsSuf, x.contentType ≠ "message/delivery-status") →
        splitCh '\n' dsPart.payload.data = aPre ++ aLine :: aRest →
        (∀ l' ∈ aPre, "action:".data.isPrefixOf (lowerLine l') = false) →
        lowerLine aLine = "action: failed".data →
        walk msg.part = cPre ++ cPart :: cSuf →
        cPart.contentType = "text/calendar" →
        (∀ x ∈ cSuf, x.contentType ≠ "text/calendar") →
        cPart.payload ≠ "" →
        inbound parseCal db msg = .bounceProcessed cPart.payload)
  ∧ (∀ (parseCal : String → Except String Calendar) (db : List TokenRow)
        (msg : Message) (dsPre dsSuf : List MimePart) (dsPart : MimePart)
        (aPre : List (List Char)) (aLine : List Char) (aRest : List (List Char)),
        (∃ q ∈ walk msg.part, q.contentType = "multipart/report") →
        walk msg.part = dsPre ++ dsPart :: dsSuf →
        dsPart.contentType = "message/delivery-status" →
        (∀ x ∈ dsSuf, x.contentType ≠ "message/delivery-status") →
        splitCh '\n' dsPart.payload.data = aPre ++ aLine :: aRest →
        (∀ l' ∈ aPre, "action:".data.isPrefixOf (lowerLine l') = false) →
        lowerLine aLine = "action: failed".data →
        (∀ q ∈ walk msg.part, q.contentType ≠ "text/calendar") →
        inbound parseCal db msg = .droppedUnusable) := by
  constructor
  · intro parseCal db msg dsPre dsSuf cPre cSuf dsPart cPart aPre aLine aRest
      hrep hdsDecomp hdsCt hdsSuf hsplit haPre haLine hcDecomp hcCt hcSuf hcne
    have hchk := checkDSNE_dsn_failed hrep hdsDecomp hdsCt hdsSuf hsplit haPre haLine
    have hcal : (dsnScan (walk msg.part) (false, none, none)).2.2
        = some cPart.payload := by
      rw [hcDecomp]
      exact dsnScan_thd_last hcCt hcSuf false none none
    rw [hcal] at hchk
    have hcond : ("failed" : String) = "failed" ∧ cPart.payload ≠ "" := ⟨rfl, hcne⟩
    simp [inbound, inboundE, classifyE, hchk, hcne]
  · intro parseCal db msg dsPre dsSuf dsPart aPre aLine aRest
      hrep hdsDecomp hdsCt hdsSuf hsplit haPre haLine hnocal
    have hchk := checkDSNE_dsn_failed hrep hdsDecomp hdsCt hdsSuf hsplit haPre haLine
    have hcal : (dsnScan (walk msg.part) (false, none, none)).2.2 = none :=
      dsnScan_thd_of_no_cal hnocal false none none
    rw [hcal] at hchk
    simp [inbound, inboundE, classifyE, hchk]

/-- Witness for C4 at a concrete DSN: `multipart/report` +
`message/delivery-status` with `Action: FAILED` and a calendar part is handed
to bounce processing; the same without the calendar part is dropped. -/
theorem c4_bounce_classification_witness :
    inbound (fun s => .error s) []
        ⟨"x@y", .mk "multipart/report" ""
          [.mk "message/delivery-status" "Reporting-MTA: dns\nAction: FAILED\n" [],
           .mk "text/calendar" "CAL" []]⟩
      = .bounceProcessed "CAL"
  ∧ inbound (fun s => .error s) []
        ⟨"x@y", .mk "multipart/report" ""
          [.mk "message/delivery-status" "Reporting-MTA: dns\nAction: FAILED\n" []]⟩
      = .droppedUnusable := by
  constructor
  · exact c4_bounce_classification.1 (fun s => .error s) []
      ⟨"x@y", .mk "multipart/report" ""
        [.mk "message/delivery-status" "Reporting-MTA: dns\nAction: FAILED\n" [],
         .mk "text/calendar" "CAL" []]⟩
      [.mk "multipart/report" ""
        [.mk "message/delivery-status" "Reporting-MTA: dns\nAction: FAILED\n" [],
         .mk "text/calendar" "CAL" []]]
      [.mk "text/calendar" "CAL" []]
      [.mk "multipart/report" ""
        [.mk "message/delivery-status" "Reporting-MTA: dns\nAction: FAILED\n" [],
         .mk "text/calendar" "CAL" []],
       .mk "message/delivery-status" "Reporting-MTA: dns\nAction: FAILED\n" []]
      []
      (.mk "message/delivery-status" "Reporting-MTA: dns\nAction: FAILED\n" [])
      (.mk "text/calendar" "CAL" [])
      ["Reporting-MTA: dns".data] "Action: FAILED".data [[]]
      ⟨.mk "multipart/report" ""
        [.mk "message/delivery-status" "Reporting-MTA: dns\nAction: FAILED\n" [],
         .mk "text/calendar" "CAL" []], by simp [walk, walkList], rfl⟩
      (by simp [walk, walkList]) rfl (by decide) rfl (by decide) (by decide)
      (by simp [walk, walkList]) rfl (by decide) (by decide)
  · exact c4_bounce_classification.2 (fun s => .error s) []
      ⟨"x@y", .mk "multipart/report" ""
        [.mk "message/delivery-status" "Reporting-MTA: dns\nAction: FAILED\n" []]⟩
      [.mk "multipart/report" ""
        [.mk "message/delivery-status" "Reporting-MTA: dns\nAction: FAILED\n" []]]
      []
      (.mk "message/delivery-status" "Reporting-MTA: dns\nAction: FAILED\n" [])
      ["Reporting-MTA: dns".data] "Action: FAILED".data [[]]
      ⟨.mk "multipart/report" ""
        [.mk "message/delivery-status" "Reporting-MTA: dns\nAction: FAILED\n" []],
        by simp [walk, walkList], rfl⟩
      (by simp [walk, walkList]) rfl (by decide) rfl (by decide) (by decide)
      (by decide)

theorem scanChallengeGo_none {ws : List String}
    (h : ∀ item ∈ ws, "basic ".data.isPrefixOf item.data = false
        ∧ "digest ".data.isPrefixOf item.data = false) (b dg : Bool)
    (det : List (String × String)) :
    scanChallengeGo ws b dg det = .ok (b, dg, det) := by
  induction ws generalizing b dg det with
  | nil => rfl
  | cons item rest ih =>
    obtain ⟨hb, hd⟩ := h item (List.mem_cons_self ..)
    simp only [scanChallengeGo, hb, hd, Bool.false_eq_true, if_false]
    exact ih (fun x hx => h x (List.mem_cons_of_mem _ hx)) ..

/-- Claim C5: on a 401 the injector retries the POST with a computed
Authorization header exactly once — with no credentials configured, or after
a previous retry, or when the challenge offers neither Basic nor Digest, it
fails with Unauthorized and performs no (further) retry; when Digest is
offered (possibly alongside Basic) the single retry carries a Digest header,
and a second 401 then fails with Unauthorized with no third attempt. -/
theorem c5_auth_retry_policy :
    (∀ (cr : Crypto) (f : HTTPFactory) (ws : List String),
        f.username = none → handleStatus401 cr f ws = .ok .failUnauthorized)
  ∧ (∀ (cr : Crypto) (f : HTTPFactory) (ws : List String) (u : String),
        f.username = some u → f.retried = true →
        handleStatus401 cr f ws = .ok .failUnauthorized)
  ∧ (∀ (cr : Crypto) (f : HTTPFactory) (ws : List String) (u : String)
        (bA : Bool) (details : List (String × String)) (realm nonce : String),
        f.username = some u → f.retried = false →
        scanChallenge ws = .ok (bA, true, details) →
        details ≠ [] →
        dictGet "algorithm" details = some "md5" →
        dictGet "realm" details = some realm →
        dictGet "nonce" details = some nonce →
        dictGet "qop" details ≠ some "auth-int" →
        ∃ hdr, handleStatus401 cr f ws
            = .ok (.retryWithAuth { f with retried := true } hdr)
          ∧ (∃ tail, hdr = "Digest " ++ tail)
          ∧ ∀ ws2, handleStatus401 cr { f with retried := true } ws2
              = .ok .failUnauthorized)
  ∧ (∀ (cr : Crypto) (f : HTTPFactory) (ws : List String) (u : String),
        f.username = some u → f.retried = false →
        (∀ item ∈ ws, "basic ".data.isPrefixOf item.data = false
          ∧ "digest ".data.isPrefixOf item.data = false) →
        handleStatus401 cr f ws = .ok .failUnauthorized) := by
  refine ⟨?_, ?_, ?_, ?_⟩
  · intro cr f ws hu
    simp [handleStatus401, hu]
  · intro cr f ws u hu hr
    simp [handleStatus401, hu, hr]
  · intro cr f ws u bA details realm nonce hu hr hscan hne halg hrealm hnonce hqop
    have hha1 : calcHA1E cr (dictGet "algorithm" details) u (dictGet "realm" details)
        f.password (dictGet "nonce" details) (dictGet "cnonce" details)
        = .ok (cr.hexEnc (cr.hash (u ++ ":" ++ realm ++ ":" ++ f.password))) := by
      rw [halg, hrealm]
      simp [calcHA1E, algorithmsHas, updArg]
    have hresp : ∃ v, calcResponseE cr
        (cr.hexEnc (cr.hash (u ++ ":" ++ realm ++ ":" ++ f.password)))
        (dictGet "algorithm" details) (dictGet "nonce" details)
        (dictGet "nc" details) (dictGet "cnonce" details) (dictGet "qop" details)
        f.method f.url none = .ok v := by
      rw [halg, hnonce]
      simp only [calcResponseE, if_neg hqop, updArg]
      exact ⟨_, rfl⟩
    obtain ⟨v, hv⟩ := hresp
    have hdig : digestFromChallenge cr u f.password details f.method f.url = .ok v := by
      simp only [digestFromChallenge, hha1, hv]
    have hie : details.isEmpty = false := by
      cases details with
      | nil => exact absurd rfl hne
      | cons a l => rfl
    refine ⟨digestHeader u details f.url v, ?_, ?_, ?_⟩
    · simp only [handleStatus401, hu, hr, Bool.false_eq_true, if_false, hscan,
        hie, Bool.not_false, Bool.and_true, hdig]
      simp
    · rw [digestHeader]
      split
      · exact ⟨_, rfl⟩
      · exact ⟨_, rfl⟩
    · intro ws2
      simp [handleStatus401, hu]
  · intro cr f ws u hu hr h
    have hscan : scanChallenge ws = .ok (false, false, []) :=
      scanChallengeGo_none h false false []
    simp [handleStatus401, hu, hr, hscan]

/-- Witness for C5 at a concrete challenge offering both Basic and Digest:
the retry carries a Digest header, the retried flag is set, and any second
challenge fails with Unauthorized. -/
theorem c5_auth_retry_policy_witness :
    ∃ hdr,
      handleStatus401
          ⟨fun s => "H(" ++ s ++ ")", fun s => "h(" ++ s ++ ")", fun s => s⟩
          ⟨some "u", "p", false, "POST", "http://h:80/inbox/"⟩
          ["basic realm=\"x\"",
           "digest realm=\"x\", nonce=\"n\", qop=\"auth\", algorithm=md5"]
        = .ok (.retryWithAuth
            ⟨some "u", "p", true, "POST", "http://h:80/inbox/"⟩ hdr)
      ∧ (∃ tail, hdr = "Digest " ++ tail)
      ∧ ∀ ws2, handleStatus401
          ⟨fun s => "H(" ++ s ++ ")", fun s => "h(" ++ s ++ ")", fun s => s⟩
          ⟨some "u", "p", true, "POST", "http://h:80/inbox/"⟩ ws2
          = .ok .failUnauthorized :=
  c5_auth_retry_policy.2.2.1 _ _ _ "u" true
    [("realm", "x"), ("nonce", "n"), ("qop", "auth"), ("algorithm", "md5")]
    "x" "n" rfl rfl rfl (by decide) rfl rfl rfl (by decide)

/-- Claim C6 is refuted by the code (code bug): for a 401 Digest challenge
with `qop="auth"` — which, like every real challenge, carries no `cnonce` or
`nc` directive — `handleStatus_401` passes `details.get('cnonce')` and
`details.get('nc')` (both `None`) to `calcResponse`, so the `nc:cnonce:qop`
block is skipped and the response is computed as `H(HA1:nonce:HA2)` rather
than `H(HA1:nonce:nc:cnonce:qop:HA2)`; the emitted header still carries
`cnonce`/`qop`/`nc` parameters, with the literal string `None` for the two
missing values.  The hash primitives are instantiated with distinct tagging
functions, under which the computed and claimed response strings differ. -/
theorem c6_qop_digest_bug :
    digestFromChallenge
        ⟨fun s => "H(" ++ s ++ ")", fun s => "h(" ++ s ++ ")", fun s => s⟩
        "u" "p" [("realm", "x"), ("nonce", "n"), ("qop", "auth"), ("algorithm", "md5")]
        "POST" "http://h:80/inbox/"
      = .ok "h(H(h(H(u:x:p)):n:h(H(POST:http://h:80/inbox/))))"
  ∧ "h(H(h(H(u:x:p)):n:h(H(POST:http://h:80/inbox/))))"
      ≠ "h(H(h(H(u:x:p)):n:None:None:auth:h(H(POST:http://h:80/inbox/))))"
  ∧ handleStatus401
        ⟨fun s => "H(" ++ s ++ ")", fun s => "h(" ++ s ++ ")", fun s => s⟩
        ⟨some "u", "p", false, "POST", "http://h:80/inbox/"⟩
        ["digest realm=\"x\", nonce=\"n\", qop=\"auth\", algorithm=md5"]
      = .ok (.retryWithAuth ⟨some "u", "p", true, "POST", "http://h:80/inbox/"⟩
          "Digest username=\"u\", realm=\"x\", nonce=\"n\", uri=\"http://h:80/inbox/\", response=h(H(h(H(u:x:p)):n:h(H(POST:http://h:80/inbox/)))), algorithm=md5, cnonce=\"None\", qop=auth, nc=None") :=
  ⟨rfl, by decide, rfl⟩

end MailGateway
